import Mathlib

/-!
Verification of the `where-it-went` hierarchical geospatial caching search
engine.

The development shallowly embeds the Python source:

* `src/where_it_went/utils/result.py` and `utils/listutils.py` (the `Result`
  sum type and the list helpers the engine uses),
* `src/where_it_went/service/search_places/s2helpers.py` (level selection,
  region and cell values, bounds, haversine, children/neighbor derivation,
  covering-set helpers),
* `src/where_it_went/service/search_places/search_engine.py` (place decoding,
  upstream fetching, the cell cache, and the recursive cache-walk search),
* `src/where_it_went/service/redis_caching.py` (the alternative child-cell
  arithmetic), and
* `src/where_it_went/socket_setup.py` (how a `location_update` payload is
  turned into the region that drives a search).

Numbers: the source computes on IEEE floats.  The embedding uses `ℚ`; every
float literal is embedded as the rational value of its decimal text.  The
properties verified here are control-flow and algebraic properties of the
code (which list is walked, what is cached, what is filtered, which branch
runs); none of them depends on float rounding.

External libraries: the source treats the `s2cell` library as a pure
function oracle (cell ids, tokens, levels, centers, neighbors) and Python's
`math` module as a pure function oracle (`sin`, `cos`, `asin`, `sqrt`,
`radians`).  Both are modelled as explicit records of functions
(`S2Oracle`, `MathOracle`) and all engine definitions are parameterised by
them; theorems quantify over the oracle unless a claim pins down a concrete
oracle fact.

The mutually recursive walk of the engine terminates in the source because
children are one S2 level deeper and recursion stops at level 16.  The
embedding makes the walk total with an explicit `fuel` argument; every
theorem below holds for every fuel value, and the concrete witnesses use
enough fuel to reach the leaves of their walks.
-/

namespace WIW

/-- `Result` sum type of `utils/result.py`: `Ok` carries a success value,
`Err` carries an error value. -/
inductive Result (α : Type) (ε : Type) where
  | Ok : α → Result α ε
  | Err : ε → Result α ε
deriving DecidableEq

/-- `result.unwrap_or`: the `Ok` value, or the default on `Err`. -/
def unwrap_or {α ε : Type} (default : α) : Result α ε → α
  | .Ok v => v
  | .Err _ => default

/-- `listutils.do_find`: first element satisfying the predicate, `Err ()`
(Python `Err(None)`) when none does. -/
def do_find {α : Type} (is_desired : α → Bool) : List α → Result α Unit
  | [] => .Err ()
  | x :: xs => if is_desired x then .Ok x else do_find is_desired xs

/-- `listutils.do_try_map`: map a fallible function over a list, returning
the first error encountered, otherwise the list of successes. -/
def do_try_map {α β ε : Type} (fn : α → Result β ε) : List α → Result (List β) ε
  | [] => .Ok []
  | x :: xs =>
    match fn x with
    | .Err e => .Err e
    | .Ok v =>
      match do_try_map fn xs with
      | .Err e => .Err e
      | .Ok vs => .Ok (v :: vs)

/-! ## s2helpers.py -/

def MAX_S2_LEVEL : ℕ := 24

def MIN_S2_LEVEL : ℕ := 10

/-- The fixed `LEVEL_TO_DIAMETER` table (meters).  Levels outside 10..24 are
never looked up by the code paths modelled here (a lookup outside the table
raises `KeyError` in the source); the total function returns `0` there. -/
def LEVEL_TO_DIAMETER : ℕ → ℚ
  | 10 => 9766
  | 11 => 4883
  | 12 => 2441
  | 13 => 1220
  | 14 => 610
  | 15 => 305
  | 16 => 153
  | 17 => 76
  | 18 => 38
  | 19 => 19
  | 20 => 19 / 2
  | 21 => 24 / 5
  | 22 => 12 / 5
  | 23 => 6 / 5
  | 24 => 3 / 5
  | _ => 0

/-- The `while left_index < right_index` binary-search loop of
`radius_to_level`.  Each iteration strictly shrinks `right - left`, so the
loop runs at most `right - left` times; the embedding makes that explicit
with a structural fuel argument (the wrapper passes `MAX_S2_LEVEL -
MIN_S2_LEVEL`, which is enough, see `radius_to_level_loop_spec`). -/
def radius_to_level_loop (diameter : ℚ) : ℕ → ℕ → ℕ → ℕ
  | 0, left_index, _ => left_index
  | fuel + 1, left_index, right_index =>
    if left_index < right_index then
      let middle_index := (left_index + right_index + 1) / 2
      if diameter ≤ LEVEL_TO_DIAMETER middle_index then
        radius_to_level_loop diameter fuel middle_index right_index
      else
        radius_to_level_loop diameter fuel left_index (middle_index - 1)
    else left_index

/-- `radius_to_level`: binary search for the largest level whose table
diameter is at least `radius * 2`. -/
def radius_to_level (radius : ℚ) : ℕ :=
  radius_to_level_loop (radius * 2) (MAX_S2_LEVEL - MIN_S2_LEVEL)
    MIN_S2_LEVEL MAX_S2_LEVEL

/-- `SearchRegion`: circular region that represents the user's field of
view. -/
structure SearchRegion where
  latitude : ℚ
  longitude : ℚ
  radius : ℚ
deriving DecidableEq

/-- `Cell`: wrapper type for an S2 cell. -/
structure Cell where
  id : ℕ
  token : String
  level : ℕ
  latitude : ℚ
  longitude : ℚ
deriving DecidableEq

/-- `clamp` from `s2helpers.py`. -/
def clamp (value minimum maximum : ℚ) : ℚ :=
  if value < minimum then minimum
  else if maximum < value then maximum
  else value

/-- `new_search_region`: clamps each coordinate into its allowed range. -/
def new_search_region (latitude longitude radius : ℚ) : SearchRegion :=
  { latitude := clamp latitude (-90) 90
    longitude := clamp longitude (-180) 180
    radius := clamp radius 0 1000 }

/-- The external `s2cell` library, which the source uses as a pure function
oracle.  `cell_id_to_lat_lon` is split into its two components. -/
structure S2Oracle where
  lat_lon_to_cell_id : ℚ → ℚ → ℕ → ℕ
  cell_id_to_token : ℕ → String
  cell_id_to_lat : ℕ → ℚ
  cell_id_to_lon : ℕ → ℚ
  cell_id_to_level : ℕ → ℕ
  cell_id_to_parent_cell_id : ℕ → ℕ
  cell_id_to_neighbor_cell_ids : ℕ → List ℕ

/-- Python's `math` module as a pure function oracle. -/
structure MathOracle where
  sin : ℚ → ℚ
  cos : ℚ → ℚ
  asin : ℚ → ℚ
  sqrt : ℚ → ℚ
  radians : ℚ → ℚ

/-- `search_region_to_cell`: the level comes from `radius_to_level`, the id
and token from the oracle, and the latitude/longitude fields are copied
from the region (the source stores `region.latitude`/`region.longitude`,
not the cell center). -/
def search_region_to_cell (or : S2Oracle) (region : SearchRegion) : Cell :=
  let level := radius_to_level region.radius
  let id := or.lat_lon_to_cell_id region.latitude region.longitude level
  { id := id
    token := or.cell_id_to_token id
    level := level
    latitude := region.latitude
    longitude := region.longitude }

/-- `CellBounds`: axis-aligned bounding box of a cell. -/
structure CellBounds where
  latitude_min : ℚ
  longitude_min : ℚ
  latitude_max : ℚ
  longitude_max : ℚ
deriving DecidableEq

/-- `get_bounds`: center plus/minus half the table diameter, converted to
degrees. -/
def get_bounds (m : MathOracle) (cell : Cell) : CellBounds :=
  let half_size := LEVEL_TO_DIAMETER cell.level / 2
  let delta_latitude := half_size / 111320
  let delta_longitude := half_size / (111320 * m.cos (m.radians cell.latitude))
  { latitude_min := cell.latitude - delta_latitude
    longitude_min := cell.longitude - delta_longitude
    latitude_max := cell.latitude + delta_latitude
    longitude_max := cell.longitude + delta_longitude }

/-- `_lowest_one_bit_mask`: the source computes `cell_id & (~cell_id + 1)`
on a Python int; for a nonnegative id that is the lowest set bit, equal to
`n - (n &&& (n - 1))` on `ℕ`. -/
def lowest_one_bit_mask (n : ℕ) : ℕ := n - (n &&& (n - 1))

/-- A cell record whose token, level and center all come from the oracle,
exactly as `get_parent`, `get_children` and `get_neighbors` build their
results in the source. -/
def cell_of_id (or : S2Oracle) (id : ℕ) : Cell :=
  { id := id
    token := or.cell_id_to_token id
    level := or.cell_id_to_level id
    latitude := or.cell_id_to_lat id
    longitude := or.cell_id_to_lon id }

/-- `get_parent`. -/
def get_parent (or : S2Oracle) (cell : Cell) : Cell :=
  cell_of_id or (or.cell_id_to_parent_cell_id cell.id)

/-- The child-id arithmetic of `get_children`:
`cell.id + (2 * position + 1 - 4) * (lowest_one_bit_mask >> 2)` for
positions 0..3.  On `ℕ` the subtraction is written last; it never
truncates because `id ≥ lowest_one_bit_mask id ≥ 4 * (lowest_one_bit_mask
id / 4)`. -/
def child_ids (id : ℕ) : List ℕ :=
  let new_lobm := lowest_one_bit_mask id / 4
  (List.range 4).map
    (fun position => id + (2 * position + 1) * new_lobm - 4 * new_lobm)

/-- `get_children`: the four child cells, ids by mask arithmetic, the rest
of each record from the oracle. -/
def get_children (or : S2Oracle) (cell : Cell) : List Cell :=
  (child_ids cell.id).map (cell_of_id or)

/-- `get_neighbors`: edge and corner neighbors from the oracle. -/
def get_neighbors (or : S2Oracle) (cell : Cell) : List Cell :=
  (or.cell_id_to_neighbor_cell_ids cell.id).map (cell_of_id or)

/-- `haversine_distance`, with the math functions supplied by the oracle. -/
def haversine_distance (m : MathOracle)
    (latitude1 longitude1 latitude2 longitude2 : ℚ) : ℚ :=
  let earth_radius_in_meters : ℚ := 6371000
  let phi1 := m.radians latitude1
  let phi2 := m.radians latitude2
  let delta_latitude := phi2 - phi1
  let delta_longitude := m.radians (longitude2 - longitude1)
  let haversine_of_central_angle :=
    m.sin (delta_latitude / 2) ^ 2 +
      m.cos phi1 * m.cos phi2 * m.sin (delta_longitude / 2) ^ 2
  earth_radius_in_meters * 2 * m.asin (m.sqrt haversine_of_central_angle)

/-- `search_region_intersects_cell`: clamp the region center into the
cell's bounding box and compare the distance to that point with the
radius. -/
def search_region_intersects_cell (m : MathOracle)
    (region : SearchRegion) (cell : Cell) : Bool :=
  let bounds := get_bounds m cell
  let closest_latitude :=
    clamp region.latitude bounds.latitude_min bounds.latitude_max
  let closest_longitude :=
    clamp region.longitude bounds.longitude_min bounds.longitude_max
  haversine_distance m region.latitude region.longitude
      closest_latitude closest_longitude ≤ region.radius

/-- `get_intersecting_cells`: the center cell followed by the neighbors
that intersect the region. -/
def get_intersecting_cells (m : MathOracle) (or : S2Oracle)
    (region : SearchRegion) (center_cell : Cell) : List Cell :=
  center_cell ::
    (get_neighbors or center_cell).filter
      (fun neighbor => search_region_intersects_cell m region neighbor)

/-! ## search_engine.py: places, decoding, upstream fetching -/

/-- `Place` model of `search_engine.py`. -/
structure Place where
  name : String
  latitude : ℚ
  longitude : ℚ
  state : String
  zip_code : String
  types : List String
deriving DecidableEq

/-- `api.AddressComponent` (the fields `decode_place` reads). -/
structure AddressComponent where
  long_text : String
  types : List String
deriving DecidableEq

/-- `api.ApiPlace` (the fields `decode_place` reads). -/
structure ApiPlace where
  name : String
  latitude : ℚ
  longitude : ℚ
  types : List String
  address_components : List AddressComponent
deriving DecidableEq

/-- `api.NearbySearchPlacesApiResponse`. -/
structure NearbySearchPlacesApiResponse where
  places : List ApiPlace
deriving DecidableEq

/-- `api.NearbySearchPlacesApiRequest`, flattened to the circle center,
radius and the fixed result count that `build_api_request` fills in. -/
structure NearbySearchPlacesApiRequest where
  latitude : ℚ
  longitude : ℚ
  radius : ℚ
  max_result_count : ℕ
deriving DecidableEq

/-- `api.build_api_request`. -/
def build_api_request (latitude longitude radius : ℚ) :
    NearbySearchPlacesApiRequest :=
  { latitude := latitude
    longitude := longitude
    radius := radius
    max_result_count := 20 }

/-- `decode_place`: find the state and ZIP address components; either one
missing makes the whole place fail to decode. -/
def decode_place (api_place : ApiPlace) : Result Place String :=
  match do_find
      (fun component => component.types.contains "administrative_area_level_1")
      api_place.address_components with
  | .Err _ =>
    .Err ("Api could not find the state that " ++ api_place.name ++ " is in")
  | .Ok state_component =>
    match do_find (fun component => component.types.contains "postal_code")
        api_place.address_components with
    | .Err _ =>
      .Err ("Api could not find the zip code that " ++ api_place.name
        ++ " is in")
    | .Ok zip_component =>
      .Ok { name := api_place.name
            latitude := api_place.latitude
            longitude := api_place.longitude
            state := state_component.long_text
            zip_code := zip_component.long_text
            types := api_place.types }

/-- The upstream places API: one fixed response function, standing for
`api.send_request` composed with `api.handle_response`. -/
def Upstream : Type :=
  NearbySearchPlacesApiRequest → Result NearbySearchPlacesApiResponse String

/-- The request `fetch_places_for_cell` builds: circle at the cell's
latitude/longitude fields with radius `LEVEL_TO_DIAMETER[level] / 2`. -/
def fetch_request (cell : Cell) : NearbySearchPlacesApiRequest :=
  build_api_request cell.latitude cell.longitude
    (LEVEL_TO_DIAMETER cell.level / 2)

/-- `fetch_places_for_cell`: send the request, then decode every place;
any failing place fails the whole fetch (`try_map`). -/
def fetch_places_for_cell (send : Upstream) (cell : Cell) :
    Result (List Place) String :=
  match send (fetch_request cell) with
  | .Err e => .Err e
  | .Ok api_response_model =>
    do_try_map decode_place api_response_model.places

/-! ## search_engine.py: the cell cache -/

/-- A stored cache value: bytes that either decode into a list of places
(`good`, what `serialize_places` writes) or fail to decode (`corrupt`). -/
inductive Stored where
  | good : List Place → Stored
  | corrupt : Stored
deriving DecidableEq

/-- The Redis cache, restricted to the operations the engine uses: an
association list from cell tokens to stored values, newest entry first. -/
def Cache : Type := List (String × Stored)

/-- `client.get`. -/
def cache_get (st : Cache) (key : String) : Option Stored :=
  match st with
  | [] => none
  | (k, v) :: rest => if k = key then some v else cache_get rest key

/-- `client.set` (the 12-hour TTL has no observable effect in this
timeless model). -/
def cache_set (st : Cache) (key : String) (v : Stored) : Cache :=
  (key, v) :: st

/-- `serialize_places`. -/
def serialize_places (places : List Place) : Stored := .good places

/-- `deserialize_places`: corrupt bytes fail validation. -/
def deserialize_places : Stored → Result (List Place) String
  | .good places => .Ok places
  | .corrupt => .Err "validation error"

/-- `CacheMiss`/`CorruptedValue` of `search_engine.py`. -/
inductive CacheError where
  | CacheMiss : CacheError
  | CorruptedValue : CacheError
deriving DecidableEq

/-- `load_places_from_cache`: absent key is a miss, present bytes that fail
to decode are a corrupted value. -/
def load_places_from_cache (st : Cache) (cell : Cell) :
    Result (List Place) CacheError :=
  match cache_get st cell.token with
  | none => .Err .CacheMiss
  | some value =>
    match deserialize_places value with
    | .Ok places => .Ok places
    | .Err _ => .Err .CorruptedValue

/-- `cache_places`. -/
def cache_places (st : Cache) (cell : Cell) (places : List Place) : Cache :=
  cache_set st cell.token (serialize_places places)

def MAX_RECURSION_LEVEL : ℕ := 16

/-! ## search_engine.py: the recursive walk

`get_places_in_region_loop` returns the aggregated places, the updated
cache, and the number of upstream fetches performed (each leaf branch makes
exactly one `api.send_request` call in the source). -/

/-- The `for child in get_children(cell)` body of
`get_places_in_region_loop`: cache hit appends the cached places, a miss
recurses (via `recur`) and writes the child's places back, a corrupted
value is skipped. -/
def loop_children (recur : Cell → Cache → List Place × Cache × ℕ) :
    List Cell → Cache → List Place × Cache × ℕ
  | [], st => ([], st, 0)
  | child :: rest, st =>
    match load_places_from_cache st child with
    | .Ok child_places =>
      let r := loop_children recur rest st
      (child_places ++ r.1, r.2.1, r.2.2)
    | .Err .CacheMiss =>
      let c := recur child st
      let st1 := cache_places c.2.1 child c.1
      let r := loop_children recur rest st1
      (c.1 ++ r.1, r.2.1, c.2.2 + r.2.2)
    | .Err .CorruptedValue => loop_children recur rest st

/-- `get_places_in_region_loop`: at or above `MAX_RECURSION_LEVEL` fetch
upstream (a failed fetch yields `[]` via `unwrap_or`), otherwise walk the
four children through the cache. -/
def get_places_in_region_loop (or : S2Oracle) (send : Upstream) :
    ℕ → SearchRegion → Cell → Cache → List Place × Cache × ℕ
  | 0, _, _, st => ([], st, 0)
  | fuel + 1, region, cell, st =>
    if MAX_RECURSION_LEVEL ≤ cell.level then
      (unwrap_or [] (fetch_places_for_cell send cell), st, 1)
    else
      loop_children
        (fun child st' =>
          get_places_in_region_loop or send fuel region child st')
        (get_children or cell) st

/-- `calc_dist_from_region_to_nearest_boundary`: minimum of the distances
from the region center to the four edges of the parent's bounding box. -/
def calc_dist_from_region_to_nearest_boundary (m : MathOracle)
    (region : SearchRegion) (parent : Cell) : ℚ :=
  let parent_bounds := get_bounds m parent
  let dist_top := haversine_distance m region.latitude region.longitude
    parent_bounds.latitude_max region.longitude
  let dist_bottom := haversine_distance m region.latitude region.longitude
    parent_bounds.latitude_min region.longitude
  let dist_left := haversine_distance m region.latitude region.longitude
    region.latitude parent_bounds.longitude_min
  let dist_right := haversine_distance m region.latitude region.longitude
    region.latitude parent_bounds.longitude_max
  min (min (min dist_top dist_bottom) dist_left) dist_right

/-- The `neighbors` list of `get_places_in_region` at the start of its
walk loop: `[cell]`, extended with `get_intersecting_cells(region, cell)`
when the distance from the region center to the parent's nearest boundary
is at most the radius. -/
def covering_cells (or : S2Oracle) (m : MathOracle)
    (region : SearchRegion) : List Cell :=
  let cell := search_region_to_cell or region
  let parent := get_parent or cell
  let dist := calc_dist_from_region_to_nearest_boundary m region parent
  if dist ≤ region.radius then
    cell :: get_intersecting_cells m or region cell
  else
    [cell]

/-- The list the walk loop iterates over:
`neighbors if neighbors else [parent]` in the source. -/
def walked_cells (or : S2Oracle) (m : MathOracle)
    (region : SearchRegion) : List Cell :=
  let covering := covering_cells or m region
  if covering = [] then
    [get_parent or (search_region_to_cell or region)]
  else
    covering

/-- The walk loop of `get_places_in_region`: for each cell, run the
recursive loop, cache the returned places under the cell's token, and
extend the aggregate. -/
def walk_cells (or : S2Oracle) (send : Upstream) (fuel : ℕ)
    (region : SearchRegion) :
    List Cell → Cache → List Place × Cache × ℕ
  | [], st => ([], st, 0)
  | cell :: rest, st =>
    let r := get_places_in_region_loop or send fuel region cell st
    let st1 := cache_places r.2.1 cell r.1
    let w := walk_cells or send fuel region rest st1
    (r.1 ++ w.1, w.2.1, r.2.2 + w.2.2)

/-- `get_places_in_region`: walk the covering cells, then keep exactly the
places within haversine distance `region.radius` of the region center. -/
def get_places_in_region (or : S2Oracle) (m : MathOracle) (send : Upstream)
    (fuel : ℕ) (region : SearchRegion) (st : Cache) :
    List Place × Cache × ℕ :=
  let w := walk_cells or send fuel region (walked_cells or m region) st
  (w.1.filter
      (fun place =>
        haversine_distance m region.latitude region.longitude
            place.latitude place.longitude ≤ region.radius),
    w.2.1, w.2.2)

/-! ## redis_caching.py -/

/-- `redis_caching.get_child_cell_ids`: guard on the child level from the
(oracle) level function, then `cell_id << 2` plus 0..3. -/
def get_child_cell_ids (cell_id_to_level : ℕ → ℕ) (cell_id : ℕ) : List ℕ :=
  let child_level := cell_id_to_level cell_id + 1
  if MAX_S2_LEVEL < child_level then []
  else (List.range 4).map (fun i => cell_id * 4 + i)

/-- Floor base-2 logarithm with structural fuel (64 covers every 64-bit
cell id). -/
def nat_log2_fuel : ℕ → ℕ → ℕ
  | 0, _ => 0
  | fuel + 1, n => if n ≤ 1 then 0 else 1 + nat_log2_fuel fuel (n / 2)

/-- Modelled from the spec: the S2 oracle's `cell_id_to_level`, which is
out of scope for the source ("the S2 mathematical library itself — used as
a pure function oracle").  A valid S2 cell id at level L has its lowest set
bit at position `2 * (30 - L)`, so the level is `30` minus half the index
of that bit. -/
def cell_id_to_level_model (id : ℕ) : ℕ :=
  30 - nat_log2_fuel 64 (lowest_one_bit_mask id) / 2

/-! ## socket_setup.py -/

/-- A `location_update` payload: each field may be absent. -/
structure LocationUpdatePayload where
  latitude : Option ℚ
  longitude : Option ℚ
  radius : Option ℚ

/-- The `SearchRegion` that `SocketSetup.on_location_update` builds and
hands to the search: `data.get` with the GMU defaults, passed directly to
the `SearchRegion` constructor (the source does not call
`new_search_region`). -/
def on_location_update_region (data : LocationUpdatePayload) : SearchRegion :=
  { latitude := data.latitude.getD (38832352857203624 / 10 ^ 15)
    longitude := data.longitude.getD (-(7731284409452543 / 10 ^ 14))
    radius := data.radius.getD 1000 }

/-! ## Concrete instances used to evaluate the theorems

A small S2 oracle and math oracles with trivially computable values.  They
only have to be *some* instance of the external libraries: every concrete
evaluation below depends on the engine's control flow, not on geodesic
facts. -/

/-- A concrete S2 oracle: the cell containing any point is id 16 (whose
four mask-arithmetic children are 4, 12, 20, 28), tokens are decimal
strings, centers put the latitude equal to the id, every id is reported at
level 16, and there are no neighbors. -/
def oracle0 : S2Oracle :=
  { lat_lon_to_cell_id := fun _ _ _ => 16
    cell_id_to_token := fun id => toString id
    cell_id_to_lat := fun id => (id : ℚ)
    cell_id_to_lon := fun _ => 0
    cell_id_to_level := fun _ => 16
    cell_id_to_parent_cell_id := fun id => id / 4
    cell_id_to_neighbor_cell_ids := fun _ => [] }

/-- A math oracle on which every haversine distance evaluates to `0`. -/
def math0 : MathOracle :=
  { sin := fun _ => 0
    cos := fun _ => 0
    asin := fun _ => 0
    sqrt := fun _ => 0
    radians := fun _ => 0 }

/-- A math oracle on which every haversine distance evaluates to
`12742000` (so every distance comparison against a radius of at most 1000
fails). -/
def math1 : MathOracle :=
  { sin := fun _ => 0
    cos := fun _ => 0
    asin := fun _ => 1
    sqrt := fun _ => 0
    radians := fun _ => 0 }

/-- A fixed upstream response: every query returns one decodable place
named "P" at the query center. -/
def send0 : Upstream := fun request =>
  .Ok { places := [{ name := "P"
                     latitude := request.latitude
                     longitude := request.longitude
                     types := []
                     address_components :=
                       [{ long_text := "Virginia"
                          types := ["administrative_area_level_1"] },
                        { long_text := "22030"
                          types := ["postal_code"] }] }] }

/-- An upstream place record with both address components present. -/
def good_api_place : ApiPlace :=
  { name := "Good Place"
    latitude := 1
    longitude := 2
    types := []
    address_components :=
      [{ long_text := "Virginia", types := ["administrative_area_level_1"] },
       { long_text := "22030", types := ["postal_code"] }] }

/-- An upstream place record whose `postal_code` component is missing. -/
def bad_api_place : ApiPlace :=
  { name := "Bad Place"
    latitude := 3
    longitude := 4
    types := []
    address_components :=
      [{ long_text := "Virginia", types := ["administrative_area_level_1"] }] }

/-- A fixed upstream response containing one valid and one invalid place. -/
def send_mixed : Upstream := fun _ =>
  .Ok { places := [good_api_place, bad_api_place] }

/-- The `Place` that `decode_place` produces from `good_api_place`. -/
def good_place : Place :=
  { name := "Good Place"
    latitude := 1
    longitude := 2
    state := "Virginia"
    zip_code := "22030"
    types := [] }

/-- A 300 m region at the origin (chosen level 14, below the recursion
cutoff). -/
def region300 : SearchRegion := { latitude := 0, longitude := 0, radius := 300 }

/-- A 10 m region at the origin (chosen level 18, at or above the
recursion cutoff, so the walk fetches the covering cell itself). -/
def region10 : SearchRegion := { latitude := 0, longitude := 0, radius := 10 }

/-- A cache whose entry for child cell 4 of cell 16 is corrupted. -/
def corrupt4_cache : Cache := [("4", .corrupt)]

/-- A cache in which all four children of cell 16 are corrupted. -/
def all_corrupt_cache : Cache :=
  [("4", .corrupt), ("12", .corrupt), ("20", .corrupt), ("28", .corrupt)]

/-- The place `send0` yields for a query centered at `(lat, lon)`. -/
def place_at (lat lon : ℚ) : Place :=
  { name := "P"
    latitude := lat
    longitude := lon
    state := "Virginia"
    zip_code := "22030"
    types := [] }

/-- The cell `search_region_to_cell oracle0 region300` evaluates to:
id 16, token "16", level 14, carrying the region's coordinates. -/
def cell16 : Cell :=
  { id := 16, token := "16", level := 14, latitude := 0, longitude := 0 }

/-- Child cell 4 of cell 16 under `oracle0` (a level-16 leaf). -/
def leaf4 : Cell := cell_of_id oracle0 4

/-! # Theorems -/

/-! ## Level selection (claim C3) -/

/-- One step of the diameter table: each level is no wider than the level
above it. -/
theorem diameter_step (l : ℕ) (h10 : 10 ≤ l) (h24 : l < 24) :
    LEVEL_TO_DIAMETER (l + 1) ≤ LEVEL_TO_DIAMETER l := by
  interval_cases l <;> norm_num [LEVEL_TO_DIAMETER]

/-- The diameter table is antitone on levels 10..24. -/
theorem diameter_antitone {l1 l2 : ℕ} (h10 : 10 ≤ l1) (h12 : l1 ≤ l2)
    (h24 : l2 ≤ 24) : LEVEL_TO_DIAMETER l2 ≤ LEVEL_TO_DIAMETER l1 := by
  induction l2, h12 using Nat.le_induction with
  | base => exact le_refl _
  | succ n hn ih =>
    exact le_trans (diameter_step n (h10.trans hn) (by omega))
      (ih (by omega))

/-- Invariant of the binary-search loop: starting from a candidate lower
end and an exhausted upper end, with enough fuel, the loop returns a level
inside the interval that satisfies the diameter test (or is the minimum
level 10), with every strictly larger level up to 24 failing the test. -/
theorem radius_to_level_loop_spec (d : ℚ) :
    ∀ fuel l r : ℕ,
      10 ≤ l → r ≤ 24 → l ≤ r → r - l ≤ fuel →
      (d ≤ LEVEL_TO_DIAMETER l ∨ l = 10) →
      (∀ L : ℕ, r < L → L ≤ 24 → ¬ d ≤ LEVEL_TO_DIAMETER L) →
      l ≤ radius_to_level_loop d fuel l r ∧
        radius_to_level_loop d fuel l r ≤ r ∧
        (d ≤ LEVEL_TO_DIAMETER (radius_to_level_loop d fuel l r) ∨
          radius_to_level_loop d fuel l r = 10) ∧
        (∀ L : ℕ, radius_to_level_loop d fuel l r < L → L ≤ 24 →
          ¬ d ≤ LEVEL_TO_DIAMETER L) := by
  intro fuel
  induction fuel with
  | zero =>
    intro l r h10 h24 hlr hfuel hcand hhigh
    have hrl : l = r := by omega
    subst hrl
    exact ⟨le_refl _, le_refl _, hcand, hhigh⟩
  | succ f ih =>
    intro l r h10 h24 hlr hfuel hcand hhigh
    by_cases hlt : l < r
    · have hml : l < (l + r + 1) / 2 := by omega
      have hmr : (l + r + 1) / 2 ≤ r := by omega
      by_cases hd : d ≤ LEVEL_TO_DIAMETER ((l + r + 1) / 2)
      · have heq : radius_to_level_loop d (f + 1) l r =
            radius_to_level_loop d f ((l + r + 1) / 2) r := by
          simp only [radius_to_level_loop, if_pos hlt, if_pos hd]
        rw [heq]
        obtain ⟨hb1, hb2, hb3, hb4⟩ := ih ((l + r + 1) / 2) r (by omega) h24
          (by omega) (by omega) (Or.inl hd) hhigh
        exact ⟨by omega, hb2, hb3, hb4⟩
      · have heq : radius_to_level_loop d (f + 1) l r =
            radius_to_level_loop d f l ((l + r + 1) / 2 - 1) := by
          simp only [radius_to_level_loop, if_pos hlt, if_neg hd]
        rw [heq]
        have hhigh' : ∀ L : ℕ, (l + r + 1) / 2 - 1 < L → L ≤ 24 →
            ¬ d ≤ LEVEL_TO_DIAMETER L := by
          intro L hL hL24
          by_cases hLr : L ≤ r
          · intro hcontra
            exact hd (le_trans hcontra
              (diameter_antitone (by omega) (by omega) (by omega)))
          · exact hhigh L (by omega) hL24
        obtain ⟨hb1, hb2, hb3, hb4⟩ := ih l ((l + r + 1) / 2 - 1) h10
          (by omega) (by omega) (by omega) hcand hhigh'
        exact ⟨hb1, by omega, hb3, hb4⟩
    · have heq : radius_to_level_loop d (f + 1) l r = l := by
        simp only [radius_to_level_loop, if_neg hlt]
      have hrl : l = r := by omega
      rw [heq]
      subst hrl
      exact ⟨le_refl _, le_refl _, hcand, hhigh⟩

/-- The loop invariant instantiated at the call site of
`radius_to_level`. -/
theorem radius_to_level_spec (r : ℚ) :
    10 ≤ radius_to_level r ∧ radius_to_level r ≤ 24 ∧
      (r * 2 ≤ LEVEL_TO_DIAMETER (radius_to_level r) ∨
        radius_to_level r = 10) ∧
      (∀ L : ℕ, radius_to_level r < L → L ≤ 24 →
        ¬ r * 2 ≤ LEVEL_TO_DIAMETER L) := by
  have h := radius_to_level_loop_spec (r * 2) (MAX_S2_LEVEL - MIN_S2_LEVEL)
    MIN_S2_LEVEL MAX_S2_LEVEL (by norm_num [MIN_S2_LEVEL])
    (by norm_num [MAX_S2_LEVEL]) (by norm_num [MIN_S2_LEVEL, MAX_S2_LEVEL])
    (by norm_num [MIN_S2_LEVEL, MAX_S2_LEVEL])
    (Or.inr rfl) (by intro L h1 h2; norm_num [MAX_S2_LEVEL] at h1; omega)
  exact ⟨h.1, h.2.1, h.2.2.1, h.2.2.2⟩

/-- Concrete values of `radius_to_level` follow from the loop invariant:
a level that passes the diameter test while the next one fails it (or is
24) is the result. -/
theorem radius_to_level_eval (r : ℚ) (L : ℕ) (h10 : 10 ≤ L) (h24 : L ≤ 24)
    (hL : r * 2 ≤ LEVEL_TO_DIAMETER L)
    (hL1 : L = 24 ∨ LEVEL_TO_DIAMETER (L + 1) < r * 2) :
    radius_to_level r = L := by
  obtain ⟨g10, g24, gcand, ghigh⟩ := radius_to_level_spec r
  have hge : L ≤ radius_to_level r := by
    by_contra hlt
    exact ghigh L (by omega) h24 hL
  rcases hL1 with rfl | hL1
  · omega
  · by_contra hne
    have hgt : L < radius_to_level r := by omega
    rcases gcand with gc | gc
    · have hanti : LEVEL_TO_DIAMETER (radius_to_level r) ≤
          LEVEL_TO_DIAMETER (L + 1) :=
        diameter_antitone (by omega) (by omega) g24
      linarith
    · omega

/-- C3: `radius_to_level(r)` returns the largest level in `[10, 24]` whose
table diameter is at least `2·r`; it returns 24 when `r ≤ 0` and 10 when
no level passes the test.  Consequently, for every clamped region the cell
chosen by `search_region_to_cell` has a level `L` with `D(L) ≥ 2·radius`
and, when `L < 24`, `D(L+1) < 2·radius`. -/
theorem C3_radius_to_level_largest (or : S2Oracle) (region : SearchRegion)
    (r : ℚ) :
    (10 ≤ radius_to_level r ∧ radius_to_level r ≤ 24) ∧
    (r ≤ 0 → radius_to_level r = 24) ∧
    ((∀ L : ℕ, 10 ≤ L → L ≤ 24 → LEVEL_TO_DIAMETER L < r * 2) →
      radius_to_level r = 10) ∧
    (∀ L : ℕ, 10 ≤ L → L ≤ 24 → r * 2 ≤ LEVEL_TO_DIAMETER L →
      L ≤ radius_to_level r) ∧
    ((∃ L : ℕ, 10 ≤ L ∧ L ≤ 24 ∧ r * 2 ≤ LEVEL_TO_DIAMETER L) →
      r * 2 ≤ LEVEL_TO_DIAMETER (radius_to_level r)) ∧
    (0 ≤ region.radius → region.radius ≤ 1000 →
      region.radius * 2 ≤
          LEVEL_TO_DIAMETER (search_region_to_cell or region).level ∧
        ((search_region_to_cell or region).level < 24 →
          LEVEL_TO_DIAMETER ((search_region_to_cell or region).level + 1) <
            region.radius * 2)) := by
  obtain ⟨h10, h24, hcand, hhigh⟩ := radius_to_level_spec r
  have hmax : ∀ L : ℕ, 10 ≤ L → L ≤ 24 → r * 2 ≤ LEVEL_TO_DIAMETER L →
      L ≤ radius_to_level r := by
    intro L hL10 hL24 hLd
    by_contra hgt
    exact hhigh L (by omega) hL24 hLd
  have hsat : (∃ L : ℕ, 10 ≤ L ∧ L ≤ 24 ∧ r * 2 ≤ LEVEL_TO_DIAMETER L) →
      r * 2 ≤ LEVEL_TO_DIAMETER (radius_to_level r) := by
    rintro ⟨L, hL10, hL24, hLd⟩
    rcases hcand with hcand | hcand
    · exact hcand
    · rw [hcand]
      exact le_trans hLd (diameter_antitone (by omega) hL10 hL24)
  refine ⟨⟨h10, h24⟩, ?_, ?_, hmax, hsat, ?_⟩
  · intro hr0
    have h2424 : (24 : ℕ) ≤ radius_to_level r := by
      apply hmax 24 (by omega) (by omega)
      calc r * 2 ≤ 0 := by nlinarith
        _ ≤ LEVEL_TO_DIAMETER 24 := by norm_num [LEVEL_TO_DIAMETER]
    omega
  · intro hall
    rcases hcand with hcand | hcand
    · exact absurd hcand (not_le.mpr (hall _ h10 h24))
    · exact hcand
  · intro hr0 hr1000
    have hlevel : (search_region_to_cell or region).level =
        radius_to_level region.radius := rfl
    obtain ⟨g10, g24, gcand, ghigh⟩ := radius_to_level_spec region.radius
    have h12 : region.radius * 2 ≤ LEVEL_TO_DIAMETER 12 := by
      calc region.radius * 2 ≤ 2000 := by nlinarith
        _ ≤ LEVEL_TO_DIAMETER 12 := by norm_num [LEVEL_TO_DIAMETER]
    constructor
    · rw [hlevel]
      rcases gcand with gc | gc
      · exact gc
      · rw [gc]
        exact le_trans h12 (diameter_antitone (by omega) (by omega) (by omega))
    · intro hlt
      rw [hlevel] at hlt ⊢
      exact not_le.mp (ghigh (radius_to_level region.radius + 1)
        (by omega) (by omega))

/-- C3 witness: the theorem applied at radius `-1` (returning level 24)
and at the concrete 300 m region (whose chosen level satisfies the
diameter test). -/
theorem C3_witness :
    radius_to_level (-1 : ℚ) = 24 ∧
    region300.radius * 2 ≤
      LEVEL_TO_DIAMETER (search_region_to_cell oracle0 region300).level :=
  ⟨(C3_radius_to_level_largest oracle0 region300 (-1)).2.1 (by norm_num),
    ((C3_radius_to_level_largest oracle0 region300 region300.radius).2.2.2.2.2
      (by norm_num [region300]) (by norm_num [region300])).1⟩

/-! ## The covering walk list (claims C10 and C4) -/

/-- `covering_cells` with its `let` bindings expanded. -/
theorem covering_cells_eq (or : S2Oracle) (m : MathOracle)
    (region : SearchRegion) :
    covering_cells or m region =
      if calc_dist_from_region_to_nearest_boundary m region
          (get_parent or (search_region_to_cell or region)) ≤
          region.radius then
        search_region_to_cell or region ::
          get_intersecting_cells m or region (search_region_to_cell or region)
      else
        [search_region_to_cell or region] := rfl

/-- C10: the `neighbors` list of `get_places_in_region` starts as
`[cell]` and is only ever extended, so it is never empty: the `[parent]`
fallback of the walk loop is unreachable, and the walked list is the
covering list itself, headed by the center cell. -/
theorem C10_parent_fallback_unreachable (or : S2Oracle) (m : MathOracle)
    (region : SearchRegion) :
    covering_cells or m region ≠ [] ∧
    walked_cells or m region = covering_cells or m region ∧
    (walked_cells or m region).head? =
      some (search_region_to_cell or region) := by
  have hne : covering_cells or m region ≠ [] := by
    rw [covering_cells_eq]
    split <;> simp
  have hhead : (covering_cells or m region).head? =
      some (search_region_to_cell or region) := by
    rw [covering_cells_eq]
    split <;> rfl
  have hw : walked_cells or m region = covering_cells or m region := by
    unfold walked_cells
    simp [hne]
  exact ⟨hne, hw, by rw [hw]; exact hhead⟩

/-- C4 amended: when the distance from the region center to the parent's
nearest boundary exceeds the radius, the walked collection is the center
cell alone.  Otherwise it is the center cell *twice* — once from the
initial `[cell]` and once again as the head of `get_intersecting_cells` —
followed by the intersecting neighbors: as a set it is the center plus the
intersecting neighbors, but the center cell is walked twice, not once. -/
theorem C4_covering_structure (or : S2Oracle) (m : MathOracle)
    (region : SearchRegion) :
    (region.radius <
        calc_dist_from_region_to_nearest_boundary m region
          (get_parent or (search_region_to_cell or region)) →
      covering_cells or m region = [search_region_to_cell or region]) ∧
    (calc_dist_from_region_to_nearest_boundary m region
          (get_parent or (search_region_to_cell or region)) ≤
        region.radius →
      covering_cells or m region =
        search_region_to_cell or region :: search_region_to_cell or region ::
          (get_neighbors or (search_region_to_cell or region)).filter
            (fun neighbor =>
              search_region_intersects_cell m region neighbor)) ∧
    (∀ c, c ∈ covering_cells or m region ↔
      c = search_region_to_cell or region ∨
        (calc_dist_from_region_to_nearest_boundary m region
            (get_parent or (search_region_to_cell or region)) ≤
            region.radius ∧
          c ∈ get_neighbors or (search_region_to_cell or region) ∧
          search_region_intersects_cell m region c = true)) := by
  refine ⟨?_, ?_, ?_⟩
  · intro hgt
    rw [covering_cells_eq, if_neg (not_le.mpr hgt)]
  · intro hle
    rw [covering_cells_eq, if_pos hle]
    rfl
  · intro c
    rw [covering_cells_eq]
    by_cases hle : calc_dist_from_region_to_nearest_boundary m region
        (get_parent or (search_region_to_cell or region)) ≤ region.radius
    · rw [if_pos hle]
      simp only [get_intersecting_cells, List.mem_cons, List.mem_filter]
      constructor
      · rintro (h | h | ⟨h1, h2⟩)
        · exact Or.inl h
        · exact Or.inl h
        · exact Or.inr ⟨hle, h1, h2⟩
      · rintro (h | ⟨_, h1, h2⟩)
        · exact Or.inl h
        · exact Or.inr (Or.inr ⟨h1, h2⟩)
    · rw [if_neg hle]
      simp only [List.mem_singleton]
      constructor
      · intro h
        exact Or.inl h
      · rintro (h | ⟨h1, _⟩)
        · exact h
        · exact absurd h1 hle

/-- C4 witness: a region that straddles its parent's boundary under
`math0` (every distance evaluates to 0), with the duplicated-center shape
of the covering list made explicit. -/
theorem C4_witness :
    covering_cells oracle0 math0 region300 =
      search_region_to_cell oracle0 region300 ::
        search_region_to_cell oracle0 region300 ::
        (get_neighbors oracle0 (search_region_to_cell oracle0 region300)).filter
          (fun neighbor =>
            search_region_intersects_cell math0 region300 neighbor) :=
  (C4_covering_structure oracle0 math0 region300).2.1
    (by norm_num [calc_dist_from_region_to_nearest_boundary, get_bounds,
      haversine_distance, math0, region300, get_parent, cell_of_id, oracle0])

/-- C4 counterexample: under `oracle0`/`math0` every distance evaluates to
0, so the 300 m region straddles its parent's boundary; there are no
neighbors, and the covering list is the center cell *twice* — refuting
"each covering cell (in particular the center cell) walked exactly
once". -/
theorem C4_counterexample :
    covering_cells oracle0 math0 region300 =
      [search_region_to_cell oracle0 region300,
        search_region_to_cell oracle0 region300] := by
  rw [covering_cells_eq, if_pos (by
    norm_num [calc_dist_from_region_to_nearest_boundary, get_bounds,
      haversine_distance, math0, region300, get_parent, cell_of_id, oracle0])]
  simp [get_intersecting_cells, get_neighbors, oracle0]

/-! ## Cell coordinates and fetch centers (claim C5) -/

/-- C5 amended: `search_region_to_cell` copies the *region's* coordinates
into the returned cell — not the oracle's center for the chosen cell id —
so the upstream request for that top-level cell is a circle centered at
the query point.  Cells produced by `get_children` and `get_neighbors` do
carry the oracle's cell center, and their upstream requests are centered
there. -/
theorem C5_cell_carries_region_coordinates (or : S2Oracle)
    (region : SearchRegion) (parent : Cell) :
    (search_region_to_cell or region).latitude = region.latitude ∧
    (search_region_to_cell or region).longitude = region.longitude ∧
    (fetch_request (search_region_to_cell or region)).latitude =
      region.latitude ∧
    (fetch_request (search_region_to_cell or region)).longitude =
      region.longitude ∧
    (∀ child ∈ get_children or parent,
      child.latitude = or.cell_id_to_lat child.id ∧
        child.longitude = or.cell_id_to_lon child.id ∧
        (fetch_request child).latitude = or.cell_id_to_lat child.id ∧
        (fetch_request child).longitude = or.cell_id_to_lon child.id) ∧
    (∀ neighbor ∈ get_neighbors or parent,
      neighbor.latitude = or.cell_id_to_lat neighbor.id ∧
        neighbor.longitude = or.cell_id_to_lon neighbor.id) := by
  refine ⟨rfl, rfl, rfl, rfl, ?_, ?_⟩
  · intro child hchild
    simp only [get_children, List.mem_map] at hchild
    obtain ⟨id, _, rfl⟩ := hchild
    exact ⟨rfl, rfl, rfl, rfl⟩
  · intro neighbor hneighbor
    simp only [get_neighbors, List.mem_map] at hneighbor
    obtain ⟨id, _, rfl⟩ := hneighbor
    exact ⟨rfl, rfl⟩

/-- C5 counterexample: under `oracle0` (whose cell centers put the
latitude equal to the cell id) the cell returned by
`search_region_to_cell` does *not* carry the oracle's center for its id:
its latitude is the region's 0, the oracle's center latitude for id 16 is
16. -/
theorem C5_counterexample :
    (search_region_to_cell oracle0 region300).latitude = 0 ∧
    oracle0.cell_id_to_lat (search_region_to_cell oracle0 region300).id = 16 ∧
    (search_region_to_cell oracle0 region300).latitude ≠
      oracle0.cell_id_to_lat (search_region_to_cell oracle0 region300).id := by
  refine ⟨rfl, ?_, ?_⟩ <;>
    norm_num [search_region_to_cell, oracle0, region300]

/-- C5 witness: the theorem applied at `oracle0` and the concrete parent
cell 16, evaluated on its first child. -/
theorem C5_witness :
    leaf4.latitude = oracle0.cell_id_to_lat leaf4.id ∧
      leaf4.longitude = oracle0.cell_id_to_lon leaf4.id ∧
      (fetch_request leaf4).latitude = oracle0.cell_id_to_lat leaf4.id ∧
      (fetch_request leaf4).longitude = oracle0.cell_id_to_lon leaf4.id :=
  (C5_cell_carries_region_coordinates oracle0 region300 cell16).2.2.2.2.1
    leaf4
    (by
      have h : child_ids (16 : ℕ) = [4, 12, 20, 28] := by decide
      simp [get_children, cell16, h, leaf4])

/-! ## The socket handler builds an unclamped region (claim C8) -/

/-- C8: `on_location_update` passes the raw payload values straight to the
`SearchRegion` constructor, so out-of-range values are not clamped: a
payload latitude of 100 drives the search with latitude 100 (violating the
`[-90, 90]` invariant), even though the unused `new_search_region`
constructor would have clamped it to 90 and always establishes the
documented invariants. -/
theorem C8_location_update_not_clamped :
    on_location_update_region
        ({ latitude := some 100, longitude := some 0, radius := some 50 } :
          LocationUpdatePayload)
        = { latitude := 100, longitude := 0, radius := 50 } ∧
    (90 : ℚ) <
      (on_location_update_region
        ({ latitude := some 100, longitude := some 0, radius := some 50 } :
          LocationUpdatePayload)).latitude ∧
    new_search_region 100 0 50 =
      { latitude := 90, longitude := 0, radius := 50 } ∧
    (∀ lat lon rad : ℚ,
      -90 ≤ (new_search_region lat lon rad).latitude ∧
      (new_search_region lat lon rad).latitude ≤ 90 ∧
      -180 ≤ (new_search_region lat lon rad).longitude ∧
      (new_search_region lat lon rad).longitude ≤ 180 ∧
      0 ≤ (new_search_region lat lon rad).radius ∧
      (new_search_region lat lon rad).radius ≤ 1000) := by
  have hclamp : ∀ v lo hi : ℚ, lo ≤ hi →
      lo ≤ clamp v lo hi ∧ clamp v lo hi ≤ hi := by
    intro v lo hi hlohi
    unfold clamp
    split
    · exact ⟨le_refl _, hlohi⟩
    · split
      · exact ⟨hlohi, le_refl _⟩
      · constructor <;> [linarith; linarith]
  refine ⟨?_, ?_, ?_, ?_⟩
  · rfl
  · norm_num [on_location_update_region]
  · norm_num [new_search_region, clamp, SearchRegion.mk.injEq]
  · intro lat lon rad
    obtain ⟨a1, a2⟩ := hclamp lat (-90) 90 (by norm_num)
    obtain ⟨b1, b2⟩ := hclamp lon (-180) 180 (by norm_num)
    obtain ⟨c1, c2⟩ := hclamp rad 0 1000 (by norm_num)
    exact ⟨a1, a2, b1, b2, c1, c2⟩

/-! ## Distance filtering (claim C1) -/

/-- C1: the list returned by `get_places_in_region` is exactly the walk
output filtered to haversine distance at most the radius: every returned
place is within the region, and any gathered place farther than the
radius is excluded. -/
theorem C1_search_filters_by_distance (or : S2Oracle) (m : MathOracle)
    (send : Upstream) (fuel : ℕ) (region : SearchRegion) (st : Cache) :
    (get_places_in_region or m send fuel region st).1 =
      (walk_cells or send fuel region (walked_cells or m region) st).1.filter
        (fun place =>
          haversine_distance m region.latitude region.longitude
              place.latitude place.longitude ≤ region.radius) ∧
    (∀ place ∈ (get_places_in_region or m send fuel region st).1,
      haversine_distance m region.latitude region.longitude
          place.latitude place.longitude ≤ region.radius) ∧
    (∀ place ∈
        (walk_cells or send fuel region (walked_cells or m region) st).1,
      region.radius <
          haversine_distance m region.latitude region.longitude
            place.latitude place.longitude →
        place ∉ (get_places_in_region or m send fuel region st).1) := by
  refine ⟨rfl, ?_, ?_⟩
  · intro place hp
    exact of_decide_eq_true (List.mem_filter.mp hp).2
  · intro place _ hfar hin
    have hle := of_decide_eq_true (List.mem_filter.mp hin).2
    exact absurd hle (not_le.mpr hfar)

/-- Fetching any cell against `send0` yields exactly one place at the
cell's stored coordinates. -/
theorem fetch_send0_eval (cell : Cell) :
    fetch_places_for_cell send0 cell =
      .Ok [place_at cell.latitude cell.longitude] := rfl

/-- Any leaf-level walk (cell level at least 16) against `send0` fetches
once and returns the single place at the cell's coordinates, leaving the
cache untouched. -/
theorem loop_leaf_send0_eval (or : S2Oracle) (fuel : ℕ)
    (region : SearchRegion) (cell : Cell) (st : Cache)
    (h : MAX_RECURSION_LEVEL ≤ cell.level) :
    get_places_in_region_loop or send0 (fuel + 1) region cell st =
      ([place_at cell.latitude cell.longitude], st, 1) := by
  have hunfold : get_places_in_region_loop or send0 (fuel + 1) region cell
        st =
      if MAX_RECURSION_LEVEL ≤ cell.level then
        (unwrap_or [] (fetch_places_for_cell send0 cell), st, 1)
      else
        loop_children
          (fun child st' =>
            get_places_in_region_loop or send0 fuel region child st')
          (get_children or cell) st := rfl
  rw [hunfold, if_pos h, fetch_send0_eval]
  rfl

/-- The concrete 10 m search under `oracle0`/`math0`/`send0` evaluated in
full: the chosen cell is a level-18 leaf, it is walked twice (the
straddle branch duplicates the center cell), each walk fetches one place
at the cell's stored coordinates, and both copies pass the distance
filter. -/
theorem run10_eval :
    (get_places_in_region oracle0 math0 send0 1 region10 []).1 =
      [place_at 0 0, place_at 0 0] := by
  have hlev : radius_to_level (10 : ℚ) = 18 :=
    radius_to_level_eval 10 18 (by norm_num) (by norm_num)
      (by norm_num [LEVEL_TO_DIAMETER])
      (Or.inr (by norm_num [LEVEL_TO_DIAMETER]))
  have hwalked : walked_cells oracle0 math0 region10 =
      [search_region_to_cell oracle0 region10,
        search_region_to_cell oracle0 region10] := by
    have hcov : covering_cells oracle0 math0 region10 =
        [search_region_to_cell oracle0 region10,
          search_region_to_cell oracle0 region10] := by
      rw [covering_cells_eq, if_pos (by
        norm_num [calc_dist_from_region_to_nearest_boundary, get_bounds,
          haversine_distance, math0, region10, get_parent, cell_of_id,
          oracle0])]
      simp [get_intersecting_cells, get_neighbors, oracle0]
    simp [walked_cells, hcov]
  have hlev18 : (search_region_to_cell oracle0 region10).level = 18 := hlev
  have hlat : (search_region_to_cell oracle0 region10).latitude = 0 := rfl
  have hlon : (search_region_to_cell oracle0 region10).longitude = 0 := rfl
  have hloop : ∀ st : Cache,
      get_places_in_region_loop oracle0 send0 1 region10
        (search_region_to_cell oracle0 region10) st =
        ([place_at 0 0], st, 1) := by
    intro st
    rw [show (1 : ℕ) = 0 + 1 from rfl,
      loop_leaf_send0_eval oracle0 0 region10
        (search_region_to_cell oracle0 region10) st
        (by rw [hlev18]; norm_num [MAX_RECURSION_LEVEL]), hlat, hlon]
  rw [get_places_in_region, hwalked]
  simp only [walk_cells, hloop]
  norm_num [place_at, haversine_distance, math0, region10, List.filter]

/-- C1 witness: the theorem applied to the concrete 10 m search, whose
first returned place is indeed within 10 m of the region center under the
model's distance function. -/
theorem C1_witness :
    haversine_distance math0 region10.latitude region10.longitude
        (place_at 0 0).latitude (place_at 0 0).longitude ≤ region10.radius :=
  (C1_search_filters_by_distance oracle0 math0 send0 1 region10 []).2.1
    (place_at 0 0) (by rw [run10_eval]; exact List.mem_cons_self _ _)

/-! ## Invalid upstream places fail the whole fetch (claim C7) -/

/-- `do_find` returns `Err` when no element satisfies the predicate. -/
theorem do_find_err_of_none {α : Type} (p : α → Bool) :
    ∀ l : List α, (∀ x ∈ l, p x = false) → do_find p l = .Err () := by
  intro l
  induction l with
  | nil => intro _; rfl
  | cons x xs ih =>
    intro h
    simp only [do_find, h x (List.mem_cons_self x xs), Bool.false_eq_true,
      if_false]
    exact ih (fun y hy => h y (List.mem_cons_of_mem x hy))

/-- `do_try_map` fails whenever any element of the list fails. -/
theorem do_try_map_err_of_mem {α β ε : Type} (f : α → Result β ε) :
    ∀ (l : List α) (x : α), x ∈ l → (∃ e, f x = .Err e) →
      ∃ e, do_try_map f l = .Err e := by
  intro l
  induction l with
  | nil => intro x hx _; exact absurd hx (List.not_mem_nil x)
  | cons y ys ih =>
    rintro x hx ⟨e, he⟩
    cases hfy : f y with
    | Err e' => exact ⟨e', by simp [do_try_map, hfy]⟩
    | Ok v =>
      have hxy : x ∈ ys := by
        rcases List.mem_cons.mp hx with rfl | h
        · rw [hfy] at he; cases he
        · exact h
      obtain ⟨e2, he2⟩ := ih x hxy ⟨e, he⟩
      exact ⟨e2, by simp [do_try_map, hfy, he2]⟩

/-- A place without the state component, or without the ZIP component,
fails `decode_place`. -/
theorem decode_place_err_of_missing (p : ApiPlace)
    (h : (∀ c ∈ p.address_components,
        c.types.contains "administrative_area_level_1" = false) ∨
      (∀ c ∈ p.address_components,
        c.types.contains "postal_code" = false)) :
    ∃ e, decode_place p = .Err e := by
  rcases h with h | h
  · exact ⟨"Api could not find the state that " ++ p.name ++ " is in",
      by simp only [decode_place,
        do_find_err_of_none _ p.address_components h]⟩
  · cases hfind : do_find
        (fun component =>
          component.types.contains "administrative_area_level_1")
        p.address_components with
    | Err u =>
      exact ⟨"Api could not find the state that " ++ p.name ++ " is in",
        by simp only [decode_place, hfind]⟩
    | Ok sc =>
      exact ⟨"Api could not find the zip code that " ++ p.name ++ " is in",
        by simp only [decode_place, hfind,
          do_find_err_of_none _ p.address_components h]⟩

/-- C7 amended: when the upstream response for a cell contains a place
whose record lacks the state or the ZIP address component, the *whole*
fetch fails (`try_map` aborts at the first failing place), and the engine
then treats the fetch as an empty leaf — the remaining valid places of the
response are discarded along with it. -/
theorem C7_invalid_place_fails_whole_fetch (send : Upstream) (cell : Cell)
    (resp : NearbySearchPlacesApiResponse) (p : ApiPlace)
    (hsend : send (fetch_request cell) = .Ok resp)
    (hp : p ∈ resp.places)
    (hbad : (∀ c ∈ p.address_components,
        c.types.contains "administrative_area_level_1" = false) ∨
      (∀ c ∈ p.address_components,
        c.types.contains "postal_code" = false)) :
    ∃ e, fetch_places_for_cell send cell = .Err e ∧
      unwrap_or [] (fetch_places_for_cell send cell) = ([] : List Place) := by
  obtain ⟨e0, he0⟩ := decode_place_err_of_missing p hbad
  obtain ⟨e, he⟩ :=
    do_try_map_err_of_mem decode_place resp.places p hp ⟨e0, he0⟩
  refine ⟨e, ?_, ?_⟩
  · simp only [fetch_places_for_cell, hsend, he]
  · simp only [fetch_places_for_cell, hsend, he, unwrap_or]

/-- C7 counterexample: a response with one valid and one invalid place
makes the fetch return the decode error for the invalid place — it does
not return the remaining valid places (`Ok [good_place]`), nor any `Ok`
at all. -/
theorem C7_counterexample :
    fetch_places_for_cell send_mixed leaf4 =
      .Err "Api could not find the zip code that Bad Place is in" ∧
    fetch_places_for_cell send_mixed leaf4 ≠ .Ok [good_place] ∧
    (∀ places : List Place,
      fetch_places_for_cell send_mixed leaf4 ≠ .Ok places) := by
  have h : fetch_places_for_cell send_mixed leaf4 =
      .Err "Api could not find the zip code that Bad Place is in" := by
    simp [fetch_places_for_cell, send_mixed, do_try_map, decode_place,
      do_find, good_api_place, bad_api_place]
  refine ⟨h, ?_, ?_⟩
  · rw [h]; intro hc; cases hc
  · intro places
    rw [h]; intro hc; cases hc

/-- C7 witness: the amended theorem applied to the concrete mixed
response. -/
theorem C7_witness :
    ∃ e, fetch_places_for_cell send_mixed leaf4 = .Err e ∧
      unwrap_or [] (fetch_places_for_cell send_mixed leaf4) =
        ([] : List Place) :=
  C7_invalid_place_fails_whole_fetch send_mixed leaf4
    { places := [good_api_place, bad_api_place] } bad_api_place rfl
    (List.mem_cons_of_mem _ (List.mem_cons_self _ _))
    (Or.inr (by decide))

/-! ## Cache plumbing lemmas shared by claims C6 and C2 -/

/-- One-step unfolding of the walk at positive fuel. -/
theorem loop_unfold (or : S2Oracle) (send : Upstream) (fuel : ℕ)
    (region : SearchRegion) (cell : Cell) (st : Cache) :
    get_places_in_region_loop or send (fuel + 1) region cell st =
      if MAX_RECURSION_LEVEL ≤ cell.level then
        (unwrap_or [] (fetch_places_for_cell send cell), st, 1)
      else
        loop_children
          (fun child st' =>
            get_places_in_region_loop or send fuel region child st')
          (get_children or cell) st := rfl

/-- Reading a cache after a `cache_set`. -/
theorem cache_get_set (st : Cache) (k : String) (v : Stored) (t : String) :
    cache_get (cache_set st k v) t =
      if k = t then some v else cache_get st t := rfl

/-- A `CacheMiss` from `load_places_from_cache` means the key is absent. -/
theorem cache_get_none_of_miss (st : Cache) (cell : Cell)
    (h : load_places_from_cache st cell = .Err .CacheMiss) :
    cache_get st cell.token = none := by
  unfold load_places_from_cache at h
  cases hg : cache_get st cell.token with
  | none => rfl
  | some v =>
    rw [hg] at h
    cases v <;> simp [deserialize_places] at h

/-- An `Ok` from `load_places_from_cache` means the key holds those
places. -/
theorem cache_get_good_of_ok (st : Cache) (cell : Cell) (ps : List Place)
    (h : load_places_from_cache st cell = .Ok ps) :
    cache_get st cell.token = some (.good ps) := by
  unfold load_places_from_cache at h
  cases hg : cache_get st cell.token with
  | none => rw [hg] at h; cases h
  | some v =>
    rw [hg] at h
    cases v with
    | good qs => simp [deserialize_places] at h; rw [h]
    | corrupt => simp [deserialize_places] at h

/-- A `CorruptedValue` from `load_places_from_cache` means the key holds
corrupt bytes. -/
theorem cache_get_corrupt_of_err (st : Cache) (cell : Cell)
    (h : load_places_from_cache st cell = .Err .CorruptedValue) :
    cache_get st cell.token = some .corrupt := by
  unfold load_places_from_cache at h
  cases hg : cache_get st cell.token with
  | none => rw [hg] at h; cases h
  | some v =>
    cases v with
    | good qs => rw [hg] at h; simp [deserialize_places] at h
    | corrupt => rfl

/-- Conversely, a key holding places loads as a hit. -/
theorem load_eq_of_get_good (st : Cache) (cell : Cell) (ps : List Place)
    (h : cache_get st cell.token = some (.good ps)) :
    load_places_from_cache st cell = .Ok ps := by
  unfold load_places_from_cache
  rw [h]
  rfl

/-- Conversely, a key holding corrupt bytes loads as a corrupted value. -/
theorem load_eq_of_get_corrupt (st : Cache) (cell : Cell)
    (h : cache_get st cell.token = some .corrupt) :
    load_places_from_cache st cell = .Err .CorruptedValue := by
  unfold load_places_from_cache
  rw [h]
  rfl

/-- The child loop never removes or overwrites an existing cache entry
(its only writes are misses, i.e. keys that were absent). -/
theorem loop_children_mono
    (recur : Cell → Cache → List Place × Cache × ℕ)
    (hrec : ∀ (c : Cell) (st : Cache) (t : String) (v : Stored),
      cache_get st t = some v → cache_get (recur c st).2.1 t = some v) :
    ∀ (cs : List Cell) (st : Cache) (t : String) (v : Stored),
      cache_get st t = some v →
      cache_get (loop_children recur cs st).2.1 t = some v := by
  intro cs
  induction cs with
  | nil => intro st t v h; exact h
  | cons c rest ih =>
    intro st t v h
    cases hload : load_places_from_cache st c with
    | Ok ps =>
      simp only [loop_children, hload]
      exact ih st t v h
    | Err e =>
      cases e with
      | CacheMiss =>
        simp only [loop_children, hload]
        apply ih
        have h1 : cache_get (recur c st).2.1 t = some v := hrec c st t v h
        have hne : ¬ c.token = t := by
          intro heq
          have := cache_get_none_of_miss st c hload
          rw [heq, h] at this
          cases this
        rw [cache_places, serialize_places, cache_get_set, if_neg hne]
        exact h1
      | CorruptedValue =>
        simp only [loop_children, hload]
        exact ih st t v h

/-- The recursive walk never removes or overwrites an existing cache
entry. -/
theorem loop_mono (or : S2Oracle) (send : Upstream) :
    ∀ (fuel : ℕ) (region : SearchRegion) (c : Cell) (st : Cache)
      (t : String) (v : Stored),
      cache_get st t = some v →
      cache_get (get_places_in_region_loop or send fuel region c st).2.1 t =
        some v := by
  intro fuel
  induction fuel with
  | zero => intro region c st t v h; exact h
  | succ f ih =>
    intro region c st t v h
    rw [loop_unfold]
    by_cases hl : MAX_RECURSION_LEVEL ≤ c.level
    · rw [if_pos hl]; exact h
    · rw [if_neg hl]
      exact loop_children_mono _
        (fun c' st' t' v' h' => ih region c' st' t' v' h')
        (get_children or c) st t v h

/-- Replay of the child loop: a second pass over the same children, from
any cache that agrees (on those children's tokens) with the first pass's
final cache, returns the same places, leaves its cache untouched and
performs no work (every child is a hit or a corrupted skip). -/
theorem loop_children_replay
    (recur : Cell → Cache → List Place × Cache × ℕ)
    (hrec : ∀ (c : Cell) (st : Cache) (t : String) (v : Stored),
      cache_get st t = some v → cache_get (recur c st).2.1 t = some v) :
    ∀ (cs : List Cell) (st st' : Cache),
      (∀ c ∈ cs, ∀ v : Stored,
        cache_get (loop_children recur cs st).2.1 c.token = some v →
        cache_get st' c.token = some v) →
      loop_children recur cs st' =
        ((loop_children recur cs st).1, st', 0) := by
  intro cs
  induction cs with
  | nil => intro st st' _; rfl
  | cons c rest ih =>
    intro st st' hagree
    cases hload : load_places_from_cache st c with
    | Ok ps =>
      have hst : cache_get st c.token = some (.good ps) :=
        cache_get_good_of_ok st c ps hload
      have hrun1 : loop_children recur (c :: rest) st =
          (ps ++ (loop_children recur rest st).1,
            (loop_children recur rest st).2.1,
            (loop_children recur rest st).2.2) := by
        simp only [loop_children, hload]
      have hfin : cache_get (loop_children recur (c :: rest) st).2.1 c.token
          = some (.good ps) := by
        rw [hrun1]
        exact loop_children_mono recur hrec rest st c.token _ hst
      have hst' : cache_get st' c.token = some (.good ps) :=
        hagree c (List.mem_cons_self c rest) _ hfin
      have hload' : load_places_from_cache st' c = .Ok ps :=
        load_eq_of_get_good st' c ps hst'
      have hrest : loop_children recur rest st' =
          ((loop_children recur rest st).1, st', 0) := by
        apply ih st st'
        intro c2 hc2 v hv
        apply hagree c2 (List.mem_cons_of_mem c hc2) v
        rw [hrun1]
        exact hv
      simp only [loop_children, hload, hload', hrest, hrun1]
    | Err e =>
      cases e with
      | CacheMiss =>
        have hrun1 : loop_children recur (c :: rest) st =
            ((recur c st).1 ++
                (loop_children recur rest
                  (cache_places (recur c st).2.1 c (recur c st).1)).1,
              (loop_children recur rest
                (cache_places (recur c st).2.1 c (recur c st).1)).2.1,
              (recur c st).2.2 +
                (loop_children recur rest
                  (cache_places (recur c st).2.1 c (recur c st).1)).2.2) := by
          simp only [loop_children, hload]
        have hst1 : cache_get
            (cache_places (recur c st).2.1 c (recur c st).1) c.token =
            some (.good (recur c st).1) := by
          rw [cache_places, serialize_places, cache_get_set, if_pos rfl]
        have hfin : cache_get
            (loop_children recur (c :: rest) st).2.1 c.token =
            some (.good (recur c st).1) := by
          rw [hrun1]
          exact loop_children_mono recur hrec rest _ c.token _ hst1
        have hst' : cache_get st' c.token = some (.good (recur c st).1) :=
          hagree c (List.mem_cons_self c rest) _ hfin
        have hload' : load_places_from_cache st' c = .Ok (recur c st).1 :=
          load_eq_of_get_good st' c _ hst'
        have hrest : loop_children recur rest st' =
            ((loop_children recur rest
                (cache_places (recur c st).2.1 c (recur c st).1)).1,
              st', 0) := by
          apply ih (cache_places (recur c st).2.1 c (recur c st).1) st'
          intro c2 hc2 v hv
          apply hagree c2 (List.mem_cons_of_mem c hc2) v
          rw [hrun1]
          exact hv
        simp only [loop_children, hload, hload', hrest, hrun1]
      | CorruptedValue =>
        have hst : cache_get st c.token = some .corrupt :=
          cache_get_corrupt_of_err st c hload
        have hrun1 : loop_children recur (c :: rest) st =
            loop_children recur rest st := by
          simp only [loop_children, hload]
        have hfin : cache_get (loop_children recur (c :: rest) st).2.1
            c.token = some .corrupt := by
          rw [hrun1]
          exact loop_children_mono recur hrec rest st c.token _ hst
        have hst' : cache_get st' c.token = some .corrupt :=
          hagree c (List.mem_cons_self c rest) _ hfin
        have hload' : load_places_from_cache st' c = .Err .CorruptedValue :=
          load_eq_of_get_corrupt st' c hst'
        have hrest : loop_children recur rest st' =
            ((loop_children recur rest st).1, st', 0) := by
          apply ih st st'
          intro c2 hc2 v hv
          apply hagree c2 (List.mem_cons_of_mem c hc2) v
          rw [hrun1]
          exact hv
        simp only [loop_children, hload, hload', hrest, hrun1]

/-- Replay of one covering-cell walk below the recursion cutoff: rerun
from any cache agreeing with the first run's final cache on the child
tokens, and the walk returns the same places with zero upstream calls and
no cache writes. -/
theorem loop_replay (or : S2Oracle) (send : Upstream) (fuel : ℕ)
    (region : SearchRegion) (c : Cell) (st st' : Cache)
    (h16 : c.level < MAX_RECURSION_LEVEL)
    (hagree : ∀ child ∈ get_children or c, ∀ v : Stored,
      cache_get
          (get_places_in_region_loop or send fuel region c st).2.1
          child.token = some v →
      cache_get st' child.token = some v) :
    get_places_in_region_loop or send fuel region c st' =
      ((get_places_in_region_loop or send fuel region c st).1, st', 0) := by
  cases fuel with
  | zero => rfl
  | succ f =>
    have hnot : ¬ MAX_RECURSION_LEVEL ≤ c.level := not_le.mpr h16
    rw [loop_unfold or send f region c st, if_neg hnot] at hagree
    rw [loop_unfold or send f region c st', if_neg hnot,
      loop_unfold or send f region c st, if_neg hnot]
    exact loop_children_replay _
      (fun c' st2 t v h => loop_mono or send f region c' st2 t v h)
      (get_children or c) st st' hagree

/-- The covering-cell walk preserves existing entries at keys that are not
a covering cell's own token. -/
theorem walk_cells_mono (or : S2Oracle) (send : Upstream) (fuel : ℕ)
    (region : SearchRegion) :
    ∀ (cs : List Cell) (st : Cache) (t : String) (v : Stored),
      cache_get st t = some v → (∀ c ∈ cs, c.token ≠ t) →
      cache_get (walk_cells or send fuel region cs st).2.1 t = some v := by
  intro cs
  induction cs with
  | nil => intro st t v h _; exact h
  | cons c rest ih =>
    intro st t v h hne
    show cache_get (walk_cells or send fuel region rest
        (cache_places
          (get_places_in_region_loop or send fuel region c st).2.1 c
          (get_places_in_region_loop or send fuel region c st).1)).2.1 t =
      some v
    apply ih _ t v _ (fun c2 hc2 => hne c2 (List.mem_cons_of_mem c hc2))
    rw [cache_places, serialize_places, cache_get_set,
      if_neg (hne c (List.mem_cons_self c rest))]
    exact loop_mono or send fuel region c st t v h

/-- Replay of the whole covering walk: under the level and
token-separation hypotheses, rerunning the walk from any cache that
agrees with the first run's final cache on every child token yields the
same places and zero upstream calls. -/
theorem walk_cells_replay (or : S2Oracle) (send : Upstream) (fuel : ℕ)
    (region : SearchRegion) :
    ∀ (cs : List Cell) (st st' : Cache),
      (∀ c ∈ cs, c.level < MAX_RECURSION_LEVEL) →
      (∀ c ∈ cs, ∀ c' ∈ cs, ∀ child ∈ get_children or c',
        c.token ≠ child.token) →
      (∀ c ∈ cs, ∀ child ∈ get_children or c, ∀ v : Stored,
        cache_get (walk_cells or send fuel region cs st).2.1 child.token =
          some v →
        cache_get st' child.token = some v) →
      (walk_cells or send fuel region cs st').1 =
          (walk_cells or send fuel region cs st).1 ∧
        (walk_cells or send fuel region cs st').2.2 = 0 := by
  intro cs
  induction cs with
  | nil => intro st st' _ _ _; exact ⟨rfl, rfl⟩
  | cons c rest ih =>
    intro st st' hlev hsep hagree
    set r1 := get_places_in_region_loop or send fuel region c st with hr1
    set st1 := cache_places r1.2.1 c r1.1 with hst1def
    set w1 := walk_cells or send fuel region rest st1 with hw1
    have hcmem : c ∈ c :: rest := List.mem_cons_self c rest
    have hhead : get_places_in_region_loop or send fuel region c st' =
        (r1.1, st', 0) := by
      apply loop_replay or send fuel region c st st' (hlev c hcmem)
      intro child hchild v hv
      apply hagree c hcmem child hchild v
      show cache_get w1.2.1 child.token = some v
      apply walk_cells_mono or send fuel region rest st1 child.token v
      · rw [hst1def, cache_places, serialize_places, cache_get_set,
          if_neg (hsep c hcmem c hcmem child hchild)]
        exact hv
      · intro c2 hc2
        exact hsep c2 (List.mem_cons_of_mem c hc2) c hcmem child hchild
    have hrw2 : walk_cells or send fuel region (c :: rest) st' =
        ((get_places_in_region_loop or send fuel region c st').1 ++
            (walk_cells or send fuel region rest
              (cache_places
                (get_places_in_region_loop or send fuel region c st').2.1 c
                (get_places_in_region_loop or send fuel region c st').1)).1,
          (walk_cells or send fuel region rest
            (cache_places
              (get_places_in_region_loop or send fuel region c st').2.1 c
              (get_places_in_region_loop or send fuel region c st').1)).2.1,
          (get_places_in_region_loop or send fuel region c st').2.2 +
            (walk_cells or send fuel region rest
              (cache_places
                (get_places_in_region_loop or send fuel region c st').2.1 c
                (get_places_in_region_loop or send fuel region c st').1)).2.2)
        := rfl
    rw [hhead] at hrw2
    have hagree' : ∀ c2 ∈ rest, ∀ child ∈ get_children or c2,
        ∀ v : Stored,
        cache_get (walk_cells or send fuel region rest st1).2.1 child.token =
          some v →
        cache_get (cache_places st' c r1.1) child.token = some v := by
      intro c2 hc2 child hchild v hv
      rw [cache_places, serialize_places, cache_get_set,
        if_neg (hsep c hcmem c2 (List.mem_cons_of_mem c hc2) child hchild)]
      exact hagree c2 (List.mem_cons_of_mem c hc2) child hchild v hv
    obtain ⟨e1, e2⟩ := ih st1 (cache_places st' c r1.1)
      (fun c2 hc2 => hlev c2 (List.mem_cons_of_mem c hc2))
      (fun c2 hc2 c3 hc3 child hchild =>
        hsep c2 (List.mem_cons_of_mem c hc2) c3
          (List.mem_cons_of_mem c hc3) child hchild)
      hagree'
    constructor
    · rw [hrw2]
      show r1.1 ++
          (walk_cells or send fuel region rest (cache_places st' c r1.1)).1 =
        r1.1 ++ w1.1
      rw [e1]
    · rw [hrw2]
      show (0 : ℕ) +
          (walk_cells or send fuel region rest
            (cache_places st' c r1.1)).2.2 = 0
      rw [e2]

/-! ## Caching on repeat searches (claim C2) -/

/-- C2 amended: for a fixed upstream and region, a second invocation of
the search returns the same list of places, and performs zero upstream
calls *provided* every walked covering cell sits below
`MAX_RECURSION_LEVEL` (cells at or above the cutoff are fetched upstream
on every invocation; see the counterexample) and the covering cells'
tokens differ from the child tokens read during the walk (true of real S2
tokens, which encode the level). -/
theorem C2_second_search_serves_from_cache (or : S2Oracle)
    (m : MathOracle) (send : Upstream) (fuel : ℕ) (region : SearchRegion)
    (st : Cache)
    (hlev : ∀ c ∈ walked_cells or m region, c.level < MAX_RECURSION_LEVEL)
    (hsep : ∀ c ∈ walked_cells or m region,
      ∀ c' ∈ walked_cells or m region, ∀ child ∈ get_children or c',
        c.token ≠ child.token) :
    (get_places_in_region or m send fuel region
        ((get_places_in_region or m send fuel region st).2.1)).1 =
      (get_places_in_region or m send fuel region st).1 ∧
    (get_places_in_region or m send fuel region
        ((get_places_in_region or m send fuel region st).2.1)).2.2 = 0 := by
  obtain ⟨e1, e2⟩ := walk_cells_replay or send fuel region
    (walked_cells or m region) st
    ((walk_cells or send fuel region (walked_cells or m region) st).2.1)
    hlev hsep (fun c hc child hchild v hv => hv)
  constructor
  · show (walk_cells or send fuel region (walked_cells or m region)
        ((walk_cells or send fuel region (walked_cells or m region)
          st).2.1)).1.filter
        (fun place =>
          haversine_distance m region.latitude region.longitude
              place.latitude place.longitude ≤ region.radius) =
      (walk_cells or send fuel region (walked_cells or m region)
          st).1.filter
        (fun place =>
          haversine_distance m region.latitude region.longitude
              place.latitude place.longitude ≤ region.radius)
    rw [e1]
  · exact e2

/-- Concrete value: `radius_to_level 10 = 18`. -/
theorem radius_to_level_10 : radius_to_level (10 : ℚ) = 18 :=
  radius_to_level_eval 10 18 (by norm_num) (by norm_num)
    (by norm_num [LEVEL_TO_DIAMETER]) (Or.inr (by norm_num [LEVEL_TO_DIAMETER]))

/-- Concrete value: `radius_to_level 300 = 14`. -/
theorem radius_to_level_300 : radius_to_level (300 : ℚ) = 14 :=
  radius_to_level_eval 300 14 (by norm_num) (by norm_num)
    (by norm_num [LEVEL_TO_DIAMETER]) (Or.inr (by norm_num [LEVEL_TO_DIAMETER]))

/-- Under `math1` every haversine distance is 12742000, so the region
stays inside its parent cell and a single covering cell is walked. -/
theorem walked_cells_math1_region300 :
    walked_cells oracle0 math1 region300 =
      [search_region_to_cell oracle0 region300] := by
  have hcov : covering_cells oracle0 math1 region300 =
      [search_region_to_cell oracle0 region300] := by
    rw [covering_cells_eq, if_neg (by
      norm_num [calc_dist_from_region_to_nearest_boundary, get_bounds,
        haversine_distance, math1, region300, get_parent, cell_of_id,
        oracle0])]
  simp [walked_cells, hcov]

/-- The 10 m region under `math1` likewise walks its single (leaf-level)
covering cell. -/
theorem walked_cells_math1_region10 :
    walked_cells oracle0 math1 region10 =
      [search_region_to_cell oracle0 region10] := by
  have hcov : covering_cells oracle0 math1 region10 =
      [search_region_to_cell oracle0 region10] := by
    rw [covering_cells_eq, if_neg (by
      norm_num [calc_dist_from_region_to_nearest_boundary, get_bounds,
        haversine_distance, math1, region10, get_parent, cell_of_id,
        oracle0])]
  simp [walked_cells, hcov]

/-- Walking a single leaf-level covering cell against `send0` performs
exactly one upstream call, whatever the starting cache. -/
theorem walk_single_leaf_send0 (or : S2Oracle) (region : SearchRegion)
    (cell : Cell) (st : Cache)
    (h : MAX_RECURSION_LEVEL ≤ cell.level) :
    walk_cells or send0 1 region [cell] st =
      ([place_at cell.latitude cell.longitude],
        cache_places st cell [place_at cell.latitude cell.longitude], 1) := by
  have h1 : get_places_in_region_loop or send0 1 region cell st =
      ([place_at cell.latitude cell.longitude], st, 1) := by
    rw [show (1 : ℕ) = 0 + 1 from rfl]
    exact loop_leaf_send0_eval or 0 region cell st h
  simp only [walk_cells]
  rw [h1]
  simp

/-- C2 counterexample: for the 10 m region the chosen cell is a level-18
leaf, and the *second* invocation of the search still performs one
upstream call — not zero — because leaf-level covering cells are fetched
without consulting the cache. -/
theorem C2_counterexample :
    radius_to_level region10.radius = 18 ∧
    MAX_RECURSION_LEVEL ≤ (search_region_to_cell oracle0 region10).level ∧
    (get_places_in_region oracle0 math1 send0 1 region10
        ((get_places_in_region oracle0 math1 send0 1 region10 []).2.1)).2.2
      = 1 ∧
    0 < (get_places_in_region oracle0 math1 send0 1 region10
        ((get_places_in_region oracle0 math1 send0 1 region10 []).2.1)).2.2
    := by
  have hlevcell : (search_region_to_cell oracle0 region10).level = 18 :=
    radius_to_level_10
  have hge : MAX_RECURSION_LEVEL ≤
      (search_region_to_cell oracle0 region10).level := by
    rw [hlevcell]
    norm_num [MAX_RECURSION_LEVEL]
  have key : ∀ st : Cache,
      (get_places_in_region oracle0 math1 send0 1 region10 st).2.2 = 1 := by
    intro st
    show (walk_cells oracle0 send0 1 region10
        (walked_cells oracle0 math1 region10) st).2.2 = 1
    rw [walked_cells_math1_region10,
      walk_single_leaf_send0 oracle0 region10 _ st hge]
  refine ⟨radius_to_level_10, hge, key _, ?_⟩
  rw [key]
  norm_num

/-- C2 witness: the amended theorem applied to the 300 m region, whose
single covering cell has level 14 (below the cutoff): the second search
returns the same places and makes zero upstream calls. -/
theorem C2_witness :
    (∀ c ∈ walked_cells oracle0 math1 region300,
      c.level < MAX_RECURSION_LEVEL) ∧
    (get_places_in_region oracle0 math1 send0 2 region300
        ((get_places_in_region oracle0 math1 send0 2 region300 []).2.1)).1 =
      (get_places_in_region oracle0 math1 send0 2 region300 []).1 ∧
    (get_places_in_region oracle0 math1 send0 2 region300
        ((get_places_in_region oracle0 math1 send0 2 region300 []).2.1)).2.2
      = 0 := by
  have hlevc : (search_region_to_cell oracle0 region300).level = 14 :=
    radius_to_level_300
  have hlev : ∀ c ∈ walked_cells oracle0 math1 region300,
      c.level < MAX_RECURSION_LEVEL := by
    intro c hc
    rw [walked_cells_math1_region300, List.mem_singleton] at hc
    subst hc
    rw [hlevc]
    norm_num [MAX_RECURSION_LEVEL]
  have hchild : get_children oracle0 (search_region_to_cell oracle0
      region300) =
      [cell_of_id oracle0 4, cell_of_id oracle0 12, cell_of_id oracle0 20,
        cell_of_id oracle0 28] := by
    have h4 : child_ids (16 : ℕ) = [4, 12, 20, 28] := by decide
    have hid : (search_region_to_cell oracle0 region300).id = 16 := rfl
    simp [get_children, hid, h4]
  have hsep : ∀ c ∈ walked_cells oracle0 math1 region300,
      ∀ c' ∈ walked_cells oracle0 math1 region300,
      ∀ child ∈ get_children oracle0 c', c.token ≠ child.token := by
    intro c hc c' hc' child hchild'
    rw [walked_cells_math1_region300, List.mem_singleton] at hc hc'
    subst hc
    subst hc'
    rw [hchild] at hchild'
    simp only [List.mem_cons, List.not_mem_nil, or_false] at hchild'
    rcases hchild' with rfl | rfl | rfl | rfl <;> decide
  obtain ⟨h1, h2⟩ := C2_second_search_serves_from_cache oracle0 math1 send0
    2 region300 [] hlev hsep
  exact ⟨hlev, h1, h2⟩

/-! ## Corrupted cache entries (claim C6) -/

/-- When every child is corrupted in the cache, the child loop does
nothing: no places, no writes, no recursion. -/
theorem loop_children_all_corrupt
    (recur : Cell → Cache → List Place × Cache × ℕ) :
    ∀ (cs : List Cell) (st : Cache),
      (∀ c ∈ cs, load_places_from_cache st c = .Err .CorruptedValue) →
      loop_children recur cs st = ([], st, 0) := by
  intro cs
  induction cs with
  | nil => intro st _; rfl
  | cons c rest ih =>
    intro st h
    simp only [loop_children, h c (List.mem_cons_self c rest)]
    exact ih st (fun y hy => h y (List.mem_cons_of_mem c hy))

/-- C6 amended: a corrupted cache entry makes the walk *skip* the child
entirely — it does not recurse into it, fetches nothing for it, includes
none of its places, and writes nothing back (the broken entry remains).
In particular, when every child of a below-cutoff cell is corrupted the
walk returns no places, leaves the cache exactly as it was, and performs
zero upstream calls. -/
theorem C6_corrupted_children_skipped (or : S2Oracle) (send : Upstream)
    (fuel : ℕ) (region : SearchRegion) (cell : Cell) (st : Cache)
    (h16 : cell.level < MAX_RECURSION_LEVEL)
    (hc : ∀ child ∈ get_children or cell,
      load_places_from_cache st child = .Err .CorruptedValue) :
    get_places_in_region_loop or send (fuel + 1) region cell st =
      ([], st, 0) := by
  rw [loop_unfold, if_neg (not_le.mpr h16)]
  exact loop_children_all_corrupt _ (get_children or cell) st hc

/-- Every child of `cell16` is corrupted in `all_corrupt_cache`. -/
theorem all_corrupt_children :
    ∀ child ∈ get_children oracle0 cell16,
      load_places_from_cache all_corrupt_cache child =
        .Err .CorruptedValue := by
  intro child hchild
  have h4 : child_ids (16 : ℕ) = [4, 12, 20, 28] := by decide
  simp only [get_children, cell16, h4] at hchild
  simp only [List.map_cons, List.map_nil, List.mem_cons,
    List.not_mem_nil, or_false] at hchild
  rcases hchild with rfl | rfl | rfl | rfl <;> decide

/-- C6 counterexample: with all four children of cell 16 corrupted and an
upstream that would return a place for every query, the walk returns *no*
places and performs *zero* upstream calls — the corrupted children are
not treated as misses to be recursed into — while the broken entries
remain in the cache. -/
theorem C6_counterexample :
    load_places_from_cache all_corrupt_cache leaf4 =
      .Err .CorruptedValue ∧
    (get_places_in_region_loop oracle0 send0 2 region300 cell16
        all_corrupt_cache).1 = [] ∧
    (get_places_in_region_loop oracle0 send0 2 region300 cell16
        all_corrupt_cache).2.2 = 0 ∧
    (get_places_in_region_loop oracle0 send0 2 region300 cell16
        all_corrupt_cache).2.1 = all_corrupt_cache ∧
    cache_get (get_places_in_region_loop oracle0 send0 2 region300 cell16
        all_corrupt_cache).2.1 "4" = some .corrupt := by
  have hrun : get_places_in_region_loop oracle0 send0 2 region300 cell16
      all_corrupt_cache = ([], all_corrupt_cache, 0) := by
    rw [show (2 : ℕ) = 1 + 1 from rfl, loop_unfold,
      if_neg (by norm_num [cell16, MAX_RECURSION_LEVEL])]
    exact loop_children_all_corrupt _ (get_children oracle0 cell16)
      all_corrupt_cache all_corrupt_children
  rw [hrun]
  exact ⟨by decide, rfl, rfl, rfl, by decide⟩

/-- C6 witness: the amended theorem applied to cell 16 with all four
children corrupted. -/
theorem C6_witness :
    get_places_in_region_loop oracle0 send0 (1 + 1) region300 cell16
      all_corrupt_cache = ([], all_corrupt_cache, 0) :=
  C6_corrupted_children_skipped oracle0 send0 1 region300 cell16
    all_corrupt_cache (by norm_num [cell16, MAX_RECURSION_LEVEL])
    all_corrupt_children

/-! ## The two child-id computations disagree (claim C9) -/

set_option maxRecDepth 4000 in
/-- C9: at the valid level-10 cell id `2^40`, the mask arithmetic of
`s2helpers.get_children` yields the four S2 children, while
`redis_caching.get_child_cell_ids` yields `id*4 + 0..3` — a different
list (those values are not S2 child ids of the cell). -/
theorem C9_child_ids_diverge :
    child_ids (2 ^ 40) =
      [2 ^ 38, 3 * 2 ^ 38, 5 * 2 ^ 38, 7 * 2 ^ 38] ∧
    get_child_cell_ids cell_id_to_level_model (2 ^ 40) =
      [2 ^ 42, 2 ^ 42 + 1, 2 ^ 42 + 2, 2 ^ 42 + 3] ∧
    cell_id_to_level_model (2 ^ 40) = 10 ∧
    get_child_cell_ids cell_id_to_level_model (2 ^ 40) ≠ child_ids (2 ^ 40) ∧
    (∀ or : S2Oracle,
      (get_children or (cell_of_id or (2 ^ 40))).map Cell.id =
        child_ids (2 ^ 40)) := by
  refine ⟨by decide, by decide, by decide, by decide, ?_⟩
  intro or
  have h : ∀ cell : Cell, (get_children or cell).map Cell.id =
      child_ids cell.id := by
    intro cell
    simp only [get_children, List.map_map]
    rw [show Cell.id ∘ cell_of_id or = id from rfl, List.map_id]
  exact h (cell_of_id or (2 ^ 40))

end WIW
